import Mathlib

/-!
# Stop Watch (ATmega16/32, Stop_Watch.c)

A shallow embedding of `Stop_Watch.c`: the three global counters, the I/O
registers the program writes, the four interrupt service routines, the
initialisation functions and one pass of the display loop of `main`.

Machine integers are natural numbers with explicit reduction: `unsigned int`
is 16 bits wide on the AVR target (reduction modulo 65536), an I/O register is
8 bits wide (reduction modulo 256 on every store), `int` is 16 bits wide (the
bitwise complement is taken at that width).
-/

namespace StopWatch

/-! ## Machine widths -/

/-- Number of values of `unsigned int` on the AVR target (16 bits). -/
def UINT_SIZE : Nat := 65536

/-- Number of values of an 8-bit I/O register. -/
def REG8_SIZE : Nat := 256

/-- Bitwise complement `~x` of a non-negative `int` value, as the 16-bit pattern. -/
def bitNot (x : Nat) : Nat := 65535 ^^^ x

/-! ## Bit positions from the device header (`avr/io.h`, ATmega16/32) -/

def CS10 : Nat := 0
def CS11 : Nat := 1
def CS12 : Nat := 2
def WGM12 : Nat := 3
def FOC1B : Nat := 2
def FOC1A : Nat := 3
def OCIE1A : Nat := 4
def ISC00 : Nat := 0
def ISC01 : Nat := 1
def ISC10 : Nat := 2
def ISC11 : Nat := 3
def ISC2 : Nat := 6
def INT0 : Nat := 6
def INT1 : Nat := 7
def INT2 : Nat := 5
def PD2 : Nat := 2
def PD3 : Nat := 3
def PB2 : Nat := 2
def PA0 : Nat := 0
def PA1 : Nat := 1
def PA2 : Nat := 2
def PA3 : Nat := 3
def PA4 : Nat := 4
def PA5 : Nat := 5

/-! ## Machine state -/

/-- The globals `second`, `minute`, `hour` and the registers the program touches. -/
structure Mcu where
  second : Nat
  minute : Nat
  hour : Nat
  SREG : Nat
  TCNT1 : Nat
  OCR1A : Nat
  TCCR1A : Nat
  TCCR1B : Nat
  TIMSK : Nat
  MCUCR : Nat
  MCUCSR : Nat
  GICR : Nat
  DDRA : Nat
  PORTA : Nat
  DDRB : Nat
  PORTB : Nat
  DDRC : Nat
  PORTC : Nat
  DDRD : Nat
  PORTD : Nat
deriving DecidableEq, Repr

/-- State at power-on: the globals are initialised to 0, the registers hold their reset value 0. -/
def powerOn : Mcu :=
  { second := 0, minute := 0, hour := 0, SREG := 0, TCNT1 := 0, OCR1A := 0,
    TCCR1A := 0, TCCR1B := 0, TIMSK := 0, MCUCR := 0, MCUCSR := 0, GICR := 0,
    DDRA := 0, PORTA := 0, DDRB := 0, PORTB := 0, DDRC := 0, PORTC := 0,
    DDRD := 0, PORTD := 0 }

/-- The counter value `(hour, minute, second)` held in a state. -/
def time (m : Mcu) : Nat × Nat × Nat := (m.hour, m.minute, m.second)

/-! ## Timer1 -/

/-- Function `Timer1_Init_Compare_Mode` of the source. -/
def Timer1_Init_Compare_Mode (m : Mcu) : Mcu :=
  let m := { m with SREG := (m.SREG ||| (1 <<< 7)) % REG8_SIZE }
  let m := { m with TCNT1 := 0 }
  let m := { m with OCR1A := 15625 }
  let m := { m with TCCR1A := ((1 <<< FOC1A) ||| (1 <<< FOC1B)) % REG8_SIZE }
  let m := { m with TCCR1B := ((1 <<< WGM12) ||| (1 <<< CS10) ||| (1 <<< CS11)) % REG8_SIZE }
  { m with TIMSK := (m.TIMSK ||| (1 <<< OCIE1A)) % REG8_SIZE }

/-- Handler `ISR (TIMER1_COMPA_vect)` of the source: the tick handler. -/
def TIMER1_COMPA_vect (m : Mcu) : Mcu :=
  let m := { m with second := (m.second + 1) % UINT_SIZE }
  let m := if m.second = 60 then
      { m with second := 0, minute := (m.minute + 1) % UINT_SIZE }
    else m
  if m.minute = 60 then
    { m with second := 0, minute := 0, hour := (m.hour + 1) % UINT_SIZE }
  else m

/-! ## External interrupts -/

/-- Function `INT0_INIT_RESET` of the source. -/
def INT0_INIT_RESET (m : Mcu) : Mcu :=
  let m := { m with DDRD := (m.DDRD &&& bitNot (1 <<< PD2)) % REG8_SIZE }
  let m := { m with PORTD := (m.PORTD ||| (1 <<< PD2)) % REG8_SIZE }
  let m := { m with MCUCR := (m.MCUCR ||| (1 <<< ISC01)) % REG8_SIZE }
  { m with GICR := (m.GICR ||| (1 <<< INT0)) % REG8_SIZE }

/-- Handler `ISR (INT0_vect)` of the source: the reset handler. -/
def INT0_vect (m : Mcu) : Mcu :=
  { m with second := 0, minute := 0, hour := 0 }

/-- Function `INT1_INIT_PAUSE` of the source. -/
def INT1_INIT_PAUSE (m : Mcu) : Mcu :=
  let m := { m with DDRD := (m.DDRD &&& bitNot (1 <<< PD3)) % REG8_SIZE }
  let m := { m with MCUCR := (m.MCUCR ||| ((1 <<< ISC11) ||| (1 <<< ISC10))) % REG8_SIZE }
  { m with GICR := (m.GICR ||| (1 <<< INT1)) % REG8_SIZE }

/-- Handler `ISR (INT1_vect)` of the source: the pause handler. -/
def INT1_vect (m : Mcu) : Mcu :=
  { m with TCCR1B := (m.TCCR1B &&& (bitNot (1 <<< CS10) &&& bitNot (1 <<< CS11))) % REG8_SIZE }

/-- Function `INT2_INIT_RESUME` of the source. -/
def INT2_INIT_RESUME (m : Mcu) : Mcu :=
  let m := { m with DDRB := (m.DDRB &&& bitNot (1 <<< PB2)) % REG8_SIZE }
  let m := { m with PORTB := (m.PORTB ||| (1 <<< PB2)) % REG8_SIZE }
  let m := { m with MCUCSR := (m.MCUCSR &&& bitNot (1 <<< ISC2)) % REG8_SIZE }
  { m with GICR := (m.GICR ||| (1 <<< INT2)) % REG8_SIZE }

/-- Handler `ISR (INT2_vect)` of the source: the resume handler. -/
def INT2_vect (m : Mcu) : Mcu :=
  { m with TCCR1B := (m.TCCR1B ||| ((1 <<< CS10) ||| (1 <<< CS11))) % REG8_SIZE }

/-! ## `main` -/

/-- Initialisation code of `main`, up to the super loop. -/
def main_init (m : Mcu) : Mcu :=
  let m := { m with DDRC := (m.DDRC ||| 0x0F) % REG8_SIZE }
  let m := { m with PORTC := (m.PORTC &&& 0xF0) % REG8_SIZE }
  let m := { m with DDRA := (m.DDRA ||| 0xFF) % REG8_SIZE }
  let m := { m with PORTA := 0xFF }
  let m := Timer1_Init_Compare_Mode m
  let m := INT0_INIT_RESET m
  let m := INT1_INIT_PAUSE m
  INT2_INIT_RESUME m

/-- One digit position of the super loop: `PORTA = (1 << pa); PORTC = (PORTC & 0xF0) | digit;`
(followed in the source by the 5 ms delay). The digit is an `unsigned int` expression. -/
def showDigit (pa digit : Nat) (m : Mcu) : Mcu :=
  let m := { m with PORTA := (1 <<< pa) % REG8_SIZE }
  { m with PORTC := (((m.PORTC &&& 0xF0) ||| digit) % UINT_SIZE) % REG8_SIZE }

/-- The six steps of the body of the super loop, in program order. Each step reads the
globals of the state it runs in. -/
def renderSteps : List (Mcu → Mcu) :=
  [ fun m => showDigit PA5 (m.second % 10) m,
    fun m => showDigit PA4 (m.second / 10) m,
    fun m => showDigit PA3 (m.minute % 10) m,
    fun m => showDigit PA2 (m.minute / 10) m,
    fun m => showDigit PA1 (m.hour % 10) m,
    fun m => showDigit PA0 (m.hour / 10) m ]

/-- States after each of the given steps, run in order from `m` with nothing in between. -/
def runSteps : List (Mcu → Mcu) → Mcu → List Mcu
  | [], _ => []
  | f :: fs, m => f m :: runSteps fs (f m)

/-- One pass of the super loop with no interrupt in between: the state held during each
of the six dwell periods. -/
def renderPass (m : Mcu) : List Mcu := runSteps renderSteps m

/-- Value on the 4-bit decoded-digit bus: the low four bits of `PORTC`. -/
def digitBus (m : Mcu) : Nat := m.PORTC &&& 0x0F

/-! ## Event sequences -/

/-- Apply the tick handler `n` times in a row (no other handler in between). -/
def ticks : Nat → Mcu → Mcu
  | 0, m => m
  | n + 1, m => ticks n (TIMER1_COMPA_vect m)

/-- Events that write the counter: a compare-match interrupt or an INT0 interrupt. -/
inductive CounterEvent where
  | tick
  | reset
deriving DecidableEq, Repr

/-- Handler run for a counter event. -/
def CounterEvent.handle : CounterEvent → Mcu → Mcu
  | .tick, m => TIMER1_COMPA_vect m
  | .reset, m => INT0_vect m

/-- State after a sequence of counter events. -/
def runCounter : Mcu → List CounterEvent → Mcu
  | m, [] => m
  | m, e :: es => runCounter (e.handle m) es

/-- States after each event of a sequence, in order. -/
def traceCounter : Mcu → List CounterEvent → List Mcu
  | _, [] => []
  | m, e :: es => e.handle m :: traceCounter (e.handle m) es

/-- Range predicate of the counter. -/
def InRange (m : Mcu) : Prop := m.second < 60 ∧ m.minute < 60

instance (m : Mcu) : Decidable (InRange m) := by
  unfold InRange; exact inferInstance

/-- Elapsed time of a counter value, in seconds. -/
def elapsed (m : Mcu) : Nat := 3600 * m.hour + 60 * m.minute + m.second

/-! ## The gated time base -/

/-- Clock-select field `CS12:CS10` of `TCCR1B`, as the masked register value. -/
def clockSelect (m : Mcu) : Nat :=
  m.TCCR1B &&& ((1 <<< CS12) ||| (1 <<< CS11) ||| (1 <<< CS10))

/-- Hardware tick event: Timer1 has a clock, and so the compare-match handler runs, only
when the clock-select bits are not all zero; with no clock source nothing happens. -/
def hwTick (m : Mcu) : Mcu :=
  if clockSelect m = 0 then m else TIMER1_COMPA_vect m

/-- A number of hardware tick events in a row. -/
def hwTicks : Nat → Mcu → Mcu
  | 0, m => m
  | n + 1, m => hwTicks n (hwTick m)

/-- Events of the running system: a hardware tick and the three external interrupts. -/
inductive Event where
  | tick
  | reset
  | pause
  | resume
deriving DecidableEq, Repr

/-- Effect of one event on the system. -/
def Event.step : Event → Mcu → Mcu
  | .tick, m => hwTick m
  | .reset, m => INT0_vect m
  | .pause, m => INT1_vect m
  | .resume, m => INT2_vect m

/-- State after a sequence of events. -/
def run : Mcu → List Event → Mcu
  | m, [] => m
  | m, e :: es => run (e.step m) es

/-! ## Display values -/

/-- Positions of the bits that are set in an 8-bit value, in increasing order. -/
def bitsSet (v : Nat) : List Nat := (List.range 8).filter (fun i => v.testBit i)

/-- The six values put on `PORTA` in a pass of the super loop. -/
def enableValues (m : Mcu) : List Nat := (renderPass m).map (fun s => s.PORTA)

/-- The six values put on the decoded-digit bus in a pass of the super loop. -/
def busValues (m : Mcu) : List Nat := (renderPass m).map digitBus

/-! ## The display loop with interrupts between the digit positions -/

/-- Run the given steps in order; before each step the handlers of the events that
arrived since the previous step run to completion (an interrupt is served between two
statements of `main`, never inside a handler). Gives the state after each step. When the
event lists run out, the remaining steps run with no interrupt. -/
def interleavedSteps : List (Mcu → Mcu) → List (List CounterEvent) → Mcu → List Mcu
  | [], _, _ => []
  | f :: fs, [], m => f m :: interleavedSteps fs [] (f m)
  | f :: fs, es :: ess, m => f (runCounter m es) :: interleavedSteps fs ess (f (runCounter m es))

/-- One pass of the super loop in which the events of `ess` are served before the
first, second, ... digit position. -/
def renderPassWith (ess : List (List CounterEvent)) (m : Mcu) : List Mcu :=
  interleavedSteps renderSteps ess m

/-- The six decimal digits of a counter value `(hour, minute, second)`, in position order. -/
def digitsOf (t : Nat × Nat × Nat) : List Nat :=
  [t.2.2 % 10, t.2.2 / 10, t.2.1 % 10, t.2.1 / 10, t.1 % 10, t.1 / 10]

/-- All events of a list of event lists, in order. -/
def allEvents : List (List CounterEvent) → List CounterEvent
  | [] => []
  | es :: ess => es ++ allEvents ess

/-- Counter values held during a pass: the value at its start and the value after each
event served in it (the digit positions do not write the globals). -/
def heldTimes (m : Mcu) (ess : List (List CounterEvent)) : List (Nat × Nat × Nat) :=
  time m :: (traceCounter m (allEvents ess)).map time

/-! ## The time base -/

/-- Modelled from the spec: the CPU clock frequency in Hz. `F_CPU` is not defined in the
source; the description comment of `Timer1_Init_Compare_Mode` and the spec give 1 MHz. -/
def F_CPU : Nat := 1000000

/-- Modelled from the spec: the divisor of the Timer1 clock chosen by the clock-select
field `CS12:CS10` (hardware, not in the source): 1, 8, 64, 256, 1024 for the values 1 to 5;
0 stands for "no internal clock" (timer stopped or external clock). -/
def prescalerOf : Nat → Nat
  | 1 => 1
  | 2 => 8
  | 3 => 64
  | 4 => 256
  | 5 => 1024
  | _ => 0

/-! ## The cascaded tick handler -/

/-- Cascaded variant of the tick handler, written from the words of the specification for
comparison with `TIMER1_COMPA_vect`: `minute == 60` is tested only inside the
`second == 60` branch, and `second` is not assigned a second time. -/
def cascadedTick (m : Mcu) : Mcu :=
  let m := { m with second := (m.second + 1) % UINT_SIZE }
  if m.second = 60 then
    let m := { m with second := 0, minute := (m.minute + 1) % UINT_SIZE }
    if m.minute = 60 then
      { m with minute := 0, hour := (m.hour + 1) % UINT_SIZE }
    else m
  else m

/-! ## The three initialisation functions of the external interrupts -/

/-- Names of the three initialisation functions. -/
inductive InitFn where
  | int0
  | int1
  | int2
deriving DecidableEq, Repr

/-- The function a name stands for. -/
def InitFn.apply : InitFn → Mcu → Mcu
  | .int0, m => INT0_INIT_RESET m
  | .int1, m => INT1_INIT_PAUSE m
  | .int2, m => INT2_INIT_RESUME m

/-- Run initialisation functions in the given order. -/
def runInits : List InitFn → Mcu → Mcu
  | [], m => m
  | f :: fs, m => runInits fs (f.apply m)

/-- The six orders in which the three initialisation functions can run. -/
def initOrders : List (List InitFn) :=
  [ [.int0, .int1, .int2], [.int0, .int2, .int1], [.int1, .int0, .int2],
    [.int1, .int2, .int0], [.int2, .int0, .int1], [.int2, .int1, .int0] ]

/-! ## The tick handler on states in range -/

/-- The tick handler writes only the three globals. -/
theorem tick_frame (m : Mcu) :
    TIMER1_COMPA_vect m =
      { m with second := (TIMER1_COMPA_vect m).second,
               minute := (TIMER1_COMPA_vect m).minute,
               hour := (TIMER1_COMPA_vect m).hour } := by
  unfold TIMER1_COMPA_vect
  dsimp only
  split_ifs <;> rfl

/-- Seconds after one tick, from a state in range. -/
theorem tick_second (m : Mcu) (hs : m.second < 60) (hm : m.minute < 60) :
    (TIMER1_COMPA_vect m).second = (m.second + 1) % 60 := by
  unfold TIMER1_COMPA_vect UINT_SIZE
  dsimp only
  split_ifs <;> simp_all <;> omega

/-- Minutes after one tick, from a state in range. -/
theorem tick_minute (m : Mcu) (hs : m.second < 60) (hm : m.minute < 60) :
    (TIMER1_COMPA_vect m).minute = (m.minute + (m.second + 1) / 60) % 60 := by
  unfold TIMER1_COMPA_vect UINT_SIZE
  dsimp only
  split_ifs <;> simp_all <;> omega

/-- Hours after one tick, from a state in range. -/
theorem tick_hour (m : Mcu) (hs : m.second < 60) (hm : m.minute < 60) :
    (TIMER1_COMPA_vect m).hour =
      if (m.minute + (m.second + 1) / 60) / 60 = 1 then (m.hour + 1) % 65536 else m.hour := by
  unfold TIMER1_COMPA_vect UINT_SIZE
  dsimp only
  split_ifs <;> simp_all <;> omega

/-- The tick handler keeps the counter in range. -/
theorem inRange_tick (m : Mcu) (h : InRange m) : InRange (TIMER1_COMPA_vect m) := by
  obtain ⟨hs, hm⟩ := h
  refine ⟨?_, ?_⟩
  · rw [tick_second m hs hm]
    exact Nat.mod_lt _ (by decide)
  · rw [tick_minute m hs hm]
    exact Nat.mod_lt _ (by decide)

/-- The reset handler puts the counter in range. -/
theorem inRange_reset (m : Mcu) : InRange (INT0_vect m) := by
  refine ⟨?_, ?_⟩ <;> show (0 : Nat) < 60 <;> decide

/-- Every counter event keeps the counter in range. -/
theorem inRange_handle (e : CounterEvent) (m : Mcu) (h : InRange m) : InRange (e.handle m) := by
  cases e with
  | tick => exact inRange_tick m h
  | reset => exact inRange_reset m

/-- Every state along a sequence of counter events from a state in range is in range. -/
theorem inRange_trace (es : List CounterEvent) (m : Mcu) (h : InRange m) :
    ∀ s ∈ traceCounter m es, InRange s := by
  induction es generalizing m with
  | nil =>
    intro s hs
    simp [traceCounter] at hs
  | cons e es ih =>
    intro s hs
    simp only [traceCounter, List.mem_cons] at hs
    rcases hs with rfl | hs
    · exact inRange_handle e m h
    · exact ih (e.handle m) (inRange_handle e m h) s hs

/-- The state after a sequence of counter events from a state in range is in range. -/
theorem inRange_run (es : List CounterEvent) (m : Mcu) (h : InRange m) :
    InRange (runCounter m es) := by
  induction es generalizing m with
  | nil => exact h
  | cons e es ih => exact ih (e.handle m) (inRange_handle e m h)

/-! ## Closed form of repeated ticks -/

/-- Ticking `n + 1` times is ticking `n` times and then once more. -/
theorem ticks_succ (n : Nat) (m : Mcu) :
    ticks (n + 1) m = TIMER1_COMPA_vect (ticks n m) := by
  induction n generalizing m with
  | zero => rfl
  | succ k ih =>
    show ticks (k + 1) (TIMER1_COMPA_vect m) = _
    rw [ih]
    rfl

/-- Closed form of `n` ticks from a state in range: the seconds and minutes are those of
a base-60 counter, the hours take the carries modulo 65536 (and are untouched, whatever
their value, when there is no carry). -/
theorem ticks_closed (n : Nat) (m : Mcu) (hs : m.second < 60) (hm : m.minute < 60) :
    ticks n m =
      { m with second := (m.second + n) % 60,
               minute := (m.minute + (m.second + n) / 60) % 60,
               hour := if (m.minute + (m.second + n) / 60) / 60 = 0 then m.hour
                       else (m.hour + (m.minute + (m.second + n) / 60) / 60) % 65536 } := by
  induction n with
  | zero =>
    show m = _
    have h1 : (m.second + 0) % 60 = m.second := by omega
    have h2 : (m.minute + (m.second + 0) / 60) % 60 = m.minute := by omega
    have h3 : (m.minute + (m.second + 0) / 60) / 60 = 0 := by omega
    rw [h1, h2, h3]
    rfl
  | succ k ih =>
    rw [ticks_succ, ih, tick_frame]
    have hs1 : (m.second + k) % 60 < 60 := Nat.mod_lt _ (by decide)
    have hm1 : (m.minute + (m.second + k) / 60) % 60 < 60 := Nat.mod_lt _ (by decide)
    rw [tick_second _ hs1 hm1, tick_minute _ hs1 hm1, tick_hour _ hs1 hm1]
    dsimp only
    have e1 : ((m.second + k) % 60 + 1) % 60 = (m.second + (k + 1)) % 60 := by omega
    have e2 : ((m.minute + (m.second + k) / 60) % 60 + ((m.second + k) % 60 + 1) / 60) % 60
        = (m.minute + (m.second + (k + 1)) / 60) % 60 := by omega
    have e3 : (if ((m.minute + (m.second + k) / 60) % 60 + ((m.second + k) % 60 + 1) / 60) / 60 = 1
          then ((if (m.minute + (m.second + k) / 60) / 60 = 0 then m.hour
                 else (m.hour + (m.minute + (m.second + k) / 60) / 60) % 65536) + 1) % 65536
          else (if (m.minute + (m.second + k) / 60) / 60 = 0 then m.hour
                 else (m.hour + (m.minute + (m.second + k) / 60) / 60) % 65536))
        = (if (m.minute + (m.second + (k + 1)) / 60) / 60 = 0 then m.hour
           else (m.hour + (m.minute + (m.second + (k + 1)) / 60) / 60) % 65536) := by
      split_ifs <;> omega
    rw [e1, e2, e3]

/-- Counter value after `n` ticks from a state whose counter is zero. -/
theorem time_ticks_of_zero (n : Nat) (m : Mcu) (hs : m.second = 0) (hm : m.minute = 0)
    (hh : m.hour = 0) :
    time (ticks n m) = ((n / 3600) % 65536, (n / 60) % 60, n % 60) := by
  rw [ticks_closed n m (by omega) (by omega)]
  simp only [time, hs, hm, hh, Nat.zero_add, Prod.mk.injEq, and_true]
  split_ifs <;> omega

/-- A run of `n` tick events is `n` ticks. -/
theorem runCounter_replicate_tick (n : Nat) (m : Mcu) :
    runCounter m (List.replicate n CounterEvent.tick) = ticks n m := by
  induction n generalizing m with
  | zero => rfl
  | succ k ih =>
    show runCounter (TIMER1_COMPA_vect m) (List.replicate k CounterEvent.tick) = _
    rw [ih]
    rfl

/-! ## Claims on the counter -/

/-- C1: range invariant of the counter. The predicate `second < 60 ∧ minute < 60` holds at
power-on, is preserved by the tick handler and by the reset handler, and so holds after
every event of every finite sequence of tick and reset events from power-on. -/
theorem C1_range_invariant :
    InRange powerOn ∧
    (∀ m : Mcu, InRange m → InRange (TIMER1_COMPA_vect m)) ∧
    (∀ m : Mcu, InRange m → InRange (INT0_vect m)) ∧
    (∀ es : List CounterEvent, ∀ s ∈ traceCounter powerOn es, s.second < 60 ∧ s.minute < 60) ∧
    (∀ es : List CounterEvent,
      (runCounter powerOn es).second < 60 ∧ (runCounter powerOn es).minute < 60) := by
  have h0 : InRange powerOn := by decide
  exact ⟨h0, inRange_tick, fun m _ => inRange_reset m,
    fun es => inRange_trace es powerOn h0, fun es => inRange_run es powerOn h0⟩

/-- Witness of C1 at the state 0:59:59 and at the sequence tick, reset, tick. -/
theorem C1_range_invariant_witness :
    InRange { powerOn with minute := 59, second := 59 } ∧
    InRange (TIMER1_COMPA_vect { powerOn with minute := 59, second := 59 }) ∧
    InRange (INT0_vect { powerOn with minute := 59, second := 59 }) ∧
    (TIMER1_COMPA_vect powerOn) ∈
      traceCounter powerOn [CounterEvent.tick, CounterEvent.reset, CounterEvent.tick] ∧
    (TIMER1_COMPA_vect powerOn).second < 60 ∧ (TIMER1_COMPA_vect powerOn).minute < 60 :=
  ⟨by decide,
   C1_range_invariant.2.1 _ (by decide),
   C1_range_invariant.2.2.1 _ (by decide),
   by decide,
   C1_range_invariant.2.2.2.1 [CounterEvent.tick, CounterEvent.reset, CounterEvent.tick] _
     (by decide)⟩

/-- C2: closed form of ticking from zero. After `n` ticks from power-on, with no reset,
`second = n mod 60`, `minute = (n div 60) mod 60` and `hour = (n div 3600) mod 2^16`;
125 ticks give 0:02:05. -/
theorem C2_ticks_from_zero :
    (∀ n : Nat,
      (ticks n powerOn).second = n % 60 ∧
      (ticks n powerOn).minute = (n / 60) % 60 ∧
      (ticks n powerOn).hour = (n / 3600) % UINT_SIZE) ∧
    time (ticks 125 powerOn) = (0, 2, 5) := by
  have key : ∀ n : Nat, time (ticks n powerOn) = ((n / 3600) % 65536, (n / 60) % 60, n % 60) :=
    fun n => time_ticks_of_zero n powerOn rfl rfl rfl
  refine ⟨fun n => ?_, ?_⟩
  · have h := key n
    simp only [time, Prod.mk.injEq] at h
    exact ⟨h.2.2, h.2.1, h.1⟩
  · rw [key 125]

/-- C3: every tick advances the elapsed time by exactly one second. For a state with
`second < 60`, `minute < 60` and `hour` below the maximum of `unsigned int`, the value
`3600 * hour + 60 * minute + second` after the tick handler is its value before plus 1. -/
theorem C3_tick_adds_one_second (m : Mcu) (hs : m.second < 60) (hm : m.minute < 60)
    (hh : m.hour < UINT_SIZE - 1) :
    elapsed (TIMER1_COMPA_vect m) = elapsed m + 1 := by
  unfold UINT_SIZE at hh
  unfold elapsed
  rw [tick_second m hs hm, tick_minute m hs hm, tick_hour m hs hm]
  split_ifs <;> omega

/-- Witness of C3 at 7:59:59, where both rollovers happen. -/
theorem C3_tick_adds_one_second_witness :
    (59 < 60 ∧ 59 < 60 ∧ 7 < UINT_SIZE - 1) ∧
    elapsed (TIMER1_COMPA_vect { powerOn with hour := 7, minute := 59, second := 59 })
      = elapsed { powerOn with hour := 7, minute := 59, second := 59 } + 1 :=
  ⟨by decide, C3_tick_adds_one_second { powerOn with hour := 7, minute := 59, second := 59 }
    (by decide) (by decide) (by decide)⟩

/-- Sixty ticks from 0:59:00 give 1:00:00. -/
theorem ticks_sixty_of_minute_59 (s : Mcu) (h : time s = (0, 59, 0)) :
    InRange s ∧ time (ticks 60 s) = (1, 0, 0) := by
  simp only [time, Prod.mk.injEq] at h
  obtain ⟨hh, hm, hs⟩ := h
  have hr : InRange s := by
    unfold InRange
    rw [hs, hm]
    decide
  refine ⟨hr, ?_⟩
  rw [ticks_closed 60 _ hr.1 hr.2]
  simp only [time, hs, hm, hh]
  decide

/-- C4, as stated, fails: 3540 ticks from power-on reach 0:59:00, a state in range whose
minute is 59; sixty more ticks give 1:00:00, so the minute is 0 and not 59 + 1. -/
theorem C4_sixty_ticks_counterexample :
    time (ticks 3540 powerOn) = (0, 59, 0) ∧
    InRange (ticks 3540 powerOn) ∧
    time (ticks 60 (ticks 3540 powerOn)) = (1, 0, 0) ∧
    ¬ (∀ m : Mcu, InRange m →
        (ticks 60 m).second = m.second ∧ (ticks 60 m).minute = m.minute + 1) := by
  have h1 : time (ticks 3540 powerOn) = (0, 59, 0) := by
    have h := time_ticks_of_zero 3540 powerOn rfl rfl rfl
    rw [h]
  obtain ⟨hr, h2⟩ := ticks_sixty_of_minute_59 _ h1
  refine ⟨h1, hr, h2, fun h => ?_⟩
  generalize ticks 3540 powerOn = s at h1 hr h2
  have h3 := (h s hr).2
  simp only [time, Prod.mk.injEq] at h1 h2
  omega

/-- C4, amended: from a state in range, sixty consecutive ticks leave `second` unchanged and
turn `minute` into `(minute + 1) mod 60`: `minute + 1` with `hour` untouched when `minute < 59`,
and 0 with `hour` incremented (in `unsigned int` arithmetic) when `minute = 59`. -/
theorem C4_sixty_ticks (m : Mcu) (hs : m.second < 60) (hm : m.minute < 60) :
    (ticks 60 m).second = m.second ∧
    (ticks 60 m).minute = (m.minute + 1) % 60 ∧
    (m.minute < 59 → (ticks 60 m).minute = m.minute + 1 ∧ (ticks 60 m).hour = m.hour) ∧
    (m.minute = 59 → (ticks 60 m).minute = 0 ∧ (ticks 60 m).hour = (m.hour + 1) % UINT_SIZE) := by
  rw [ticks_closed 60 m hs hm]
  unfold UINT_SIZE
  dsimp only
  refine ⟨by omega, by omega, fun h => ⟨by omega, ?_⟩, fun h => ⟨by omega, ?_⟩⟩
  · split_ifs <;> omega
  · split_ifs <;> omega

/-- Witness of C4 (amended) at 2:59:17. -/
theorem C4_sixty_ticks_witness :
    (17 < 60 ∧ 59 < 60) ∧
    (ticks 60 { powerOn with hour := 2, minute := 59, second := 17 }).second = 17 ∧
    (ticks 60 { powerOn with hour := 2, minute := 59, second := 17 }).minute = 0 ∧
    (ticks 60 { powerOn with hour := 2, minute := 59, second := 17 }).hour = 3 :=
  have h := C4_sixty_ticks { powerOn with hour := 2, minute := 59, second := 17 }
    (by decide) (by decide)
  ⟨by decide, h.1, (h.2.2.2 rfl).1, (h.2.2.2 rfl).2⟩

/-- C5: hour property. From `(hour, minute, second) = (h, 0, 0)`, exactly 3600 consecutive
ticks give `hour = h + 1` in `unsigned int` arithmetic, `minute = 0` and `second = 0`. -/
theorem C5_hour_property (m : Mcu) (h : Nat) :
    time (ticks 3600 { m with hour := h, minute := 0, second := 0 })
      = ((h + 1) % UINT_SIZE, 0, 0) := by
  rw [ticks_closed 3600 _ (Nat.zero_lt_succ 59) (Nat.zero_lt_succ 59)]
  simp [time, UINT_SIZE]

/-- C6: reset restarts the count from zero. From every state the reset handler gives 0:00:00;
reset followed by `k` ticks gives the counter of `k` ticks from power-on; one tick after a
reset gives 0:00:01; sixty ticks, a reset and ten ticks give 0:00:10. -/
theorem C6_reset_restarts (m : Mcu) :
    time (INT0_vect m) = (0, 0, 0) ∧
    (∀ k : Nat, time (ticks k (INT0_vect m)) = time (ticks k powerOn)) ∧
    time (TIMER1_COMPA_vect (INT0_vect m)) = (0, 0, 1) ∧
    time (ticks 10 (INT0_vect (ticks 60 m))) = (0, 0, 10) := by
  refine ⟨rfl, fun k => ?_, ?_, ?_⟩
  · have h1 := time_ticks_of_zero k (INT0_vect m) rfl rfl rfl
    have h2 := time_ticks_of_zero k powerOn rfl rfl rfl
    rw [h1, h2]
  · exact time_ticks_of_zero 1 (INT0_vect m) rfl rfl rfl
  · have h := time_ticks_of_zero 10 (INT0_vect (ticks 60 m)) rfl rfl rfl
    rw [h]

/-! ## Pause and resume -/

/-- The pause handler writes only `TCCR1B`. -/
theorem time_pause (m : Mcu) : time (INT1_vect m) = time m := rfl

/-- The resume handler writes only `TCCR1B`. -/
theorem time_resume (m : Mcu) : time (INT2_vect m) = time m := rfl

/-- With the clock-select bits all zero a hardware tick event does nothing. -/
theorem hwTicks_of_stopped (n : Nat) (m : Mcu) (h : clockSelect m = 0) : hwTicks n m = m := by
  induction n with
  | zero => rfl
  | succ k ih =>
    show hwTicks k (hwTick m) = m
    have h1 : hwTick m = m := by
      unfold hwTick
      rw [if_pos h]
    rw [h1, ih]

/-- The tick handler does not write `TCCR1B`. -/
theorem tick_TCCR1B (m : Mcu) : (TIMER1_COMPA_vect m).TCCR1B = m.TCCR1B := by
  rw [tick_frame]

/-- A hardware tick event does not write `TCCR1B`. -/
theorem hwTick_TCCR1B (m : Mcu) : (hwTick m).TCCR1B = m.TCCR1B := by
  unfold hwTick
  split_ifs
  · rfl
  · exact tick_TCCR1B m

/-- Every event keeps `TCCR1B` at one of the two values "running" (11) and "stopped" (8). -/
theorem step_TCCR1B (e : Event) (m : Mcu) (h : m.TCCR1B = 11 ∨ m.TCCR1B = 8) :
    (e.step m).TCCR1B = 11 ∨ (e.step m).TCCR1B = 8 := by
  cases e with
  | tick =>
    show (hwTick m).TCCR1B = 11 ∨ (hwTick m).TCCR1B = 8
    rw [hwTick_TCCR1B]
    exact h
  | reset => exact h
  | pause =>
    right
    show (m.TCCR1B &&& (bitNot (1 <<< CS10) &&& bitNot (1 <<< CS11))) % REG8_SIZE = 8
    rcases h with h | h <;> rw [h] <;> decide
  | resume =>
    left
    show (m.TCCR1B ||| ((1 <<< CS10) ||| (1 <<< CS11))) % REG8_SIZE = 11
    rcases h with h | h <;> rw [h] <;> decide

/-- After `Timer1_Init_Compare_Mode`, every event sequence leaves `TCCR1B` at 11 or 8. -/
theorem run_TCCR1B (es : List Event) (m : Mcu) (h : m.TCCR1B = 11 ∨ m.TCCR1B = 8) :
    (run m es).TCCR1B = 11 ∨ (run m es).TCCR1B = 8 := by
  induction es generalizing m with
  | nil => exact h
  | cons e es ih => exact ih (e.step m) (step_TCCR1B e m h)

/-- `Timer1_Init_Compare_Mode` writes 11 to `TCCR1B`: CTC mode, clock divided by 64. -/
theorem init_TCCR1B (m : Mcu) : (Timer1_Init_Compare_Mode m).TCCR1B = 11 := by
  show ((1 <<< WGM12) ||| (1 <<< CS10) ||| (1 <<< CS11)) % REG8_SIZE = 11
  decide

/-- The counter after a tick depends only on the counter before it. -/
theorem time_tick_congr (a b : Mcu) (h : time a = time b) :
    time (TIMER1_COMPA_vect a) = time (TIMER1_COMPA_vect b) := by
  simp only [time, Prod.mk.injEq] at h
  obtain ⟨hh, hm, hs⟩ := h
  unfold TIMER1_COMPA_vect time
  dsimp only
  rw [hh, hm, hs]
  split_ifs <;> rfl

/-- C7: pause freezes the counter and resume continues from it. For every state `s` reached
after `Timer1_Init_Compare_Mode` by tick, reset, pause and resume events: after the pause
handler the clock-select bits are all zero and any number `n` of hardware tick events
changes nothing; after the resume handler the clock-select bits are not all zero, the
counter holds its pre-pause value, and the next tick event advances it from that value. -/
theorem C7_pause_freezes_resume_continues (m0 : Mcu) (es : List Event) (n : Nat) :
    clockSelect (INT1_vect (run (Timer1_Init_Compare_Mode m0) es)) = 0 ∧
    hwTicks n (INT1_vect (run (Timer1_Init_Compare_Mode m0) es))
      = INT1_vect (run (Timer1_Init_Compare_Mode m0) es) ∧
    time (hwTicks n (INT1_vect (run (Timer1_Init_Compare_Mode m0) es)))
      = time (run (Timer1_Init_Compare_Mode m0) es) ∧
    clockSelect (INT2_vect (hwTicks n (INT1_vect (run (Timer1_Init_Compare_Mode m0) es)))) ≠ 0 ∧
    time (INT2_vect (hwTicks n (INT1_vect (run (Timer1_Init_Compare_Mode m0) es))))
      = time (run (Timer1_Init_Compare_Mode m0) es) ∧
    time (hwTick (INT2_vect (hwTicks n (INT1_vect (run (Timer1_Init_Compare_Mode m0) es)))))
      = time (TIMER1_COMPA_vect (run (Timer1_Init_Compare_Mode m0) es)) := by
  have hreach := run_TCCR1B es (Timer1_Init_Compare_Mode m0) (Or.inl (init_TCCR1B m0))
  generalize run (Timer1_Init_Compare_Mode m0) es = s at hreach
  have hp : (INT1_vect s).TCCR1B = 8 := by
    show (s.TCCR1B &&& (bitNot (1 <<< CS10) &&& bitNot (1 <<< CS11))) % REG8_SIZE = 8
    rcases hreach with h | h <;> rw [h] <;> decide
  have hstop : clockSelect (INT1_vect s) = 0 := by
    unfold clockSelect
    rw [hp]
    decide
  have hfreeze := hwTicks_of_stopped n (INT1_vect s) hstop
  have hr : (INT2_vect (INT1_vect s)).TCCR1B = 11 := by
    show ((INT1_vect s).TCCR1B ||| ((1 <<< CS10) ||| (1 <<< CS11))) % REG8_SIZE = 11
    rw [hp]
    decide
  have hgo : clockSelect (INT2_vect (INT1_vect s)) ≠ 0 := by
    unfold clockSelect
    rw [hr]
    decide
  rw [hfreeze]
  refine ⟨hstop, rfl, rfl, hgo, rfl, ?_⟩
  unfold hwTick
  rw [if_neg hgo]
  exact time_tick_congr _ _ rfl

/-! ## The display loop -/

/-- Low four bits of a value whose low nibble was cleared and then or-ed with a digit:
the result, stored in an 8-bit register, shows the low four bits of the digit. -/
theorem nibble_of_masked_or (p d : Nat) :
    ((((p &&& 0xF0) ||| d) % 65536) % 256) &&& 0x0F = d % 16 := by
  apply Nat.eq_of_testBit_eq
  intro i
  have h15 : (0x0F : Nat) = 2 ^ 4 - 1 := by decide
  have h16 : (16 : Nat) = 2 ^ 4 := by decide
  have h256 : (256 : Nat) = 2 ^ 8 := by decide
  have h65536 : (65536 : Nat) = 2 ^ 16 := by decide
  rw [h15, h16, h256, h65536]
  simp only [Nat.testBit_and, Nat.testBit_or, Nat.testBit_mod_two_pow,
    Nat.testBit_two_pow_sub_one]
  by_cases hi : i < 4
  · have h8 : i < 8 := by omega
    have h16 : i < 16 := by omega
    have h240 : Nat.testBit 0xF0 i = false := by
      interval_cases i <;> decide
    simp [hi, h8, h16, h240]
  · simp [hi]

/-- Bus value after one digit position: the low four bits of the digit expression. -/
theorem digitBus_showDigit (pa d : Nat) (m : Mcu) : digitBus (showDigit pa d m) = d % 16 :=
  nibble_of_masked_or m.PORTC d

/-- A digit position does not write `second`. -/
theorem showDigit_second (pa d : Nat) (m : Mcu) : (showDigit pa d m).second = m.second := rfl

/-- A digit position does not write `minute`. -/
theorem showDigit_minute (pa d : Nat) (m : Mcu) : (showDigit pa d m).minute = m.minute := rfl

/-- A digit position does not write `hour`. -/
theorem showDigit_hour (pa d : Nat) (m : Mcu) : (showDigit pa d m).hour = m.hour := rfl

/-- A digit position writes `(1 << pa)` to `PORTA`. -/
theorem showDigit_PORTA (pa d : Nat) (m : Mcu) :
    (showDigit pa d m).PORTA = (1 <<< pa) % REG8_SIZE := rfl

/-- The six bus values of a pass, for any state: the low four bits of the six digit
expressions, in program order. -/
theorem busValues_eq (m : Mcu) :
    busValues m =
      [m.second % 10 % 16, m.second / 10 % 16, m.minute % 10 % 16, m.minute / 10 % 16,
       m.hour % 10 % 16, m.hour / 10 % 16] := by
  simp only [busValues, renderPass, renderSteps, runSteps, List.map, digitBus_showDigit,
    showDigit_second, showDigit_minute, showDigit_hour]

/-- The six values written to `PORTA` in a pass, for any state. -/
theorem enableValues_eq (m : Mcu) : enableValues m = [32, 16, 8, 4, 2, 1] := by
  simp only [enableValues, renderPass, renderSteps, runSteps, List.map, showDigit_PORTA]
  decide

/-- C8: rendered digits. For `second < 60`, `minute < 60`, `hour < 100` and any prior `PORTC`,
a pass of the super loop with no interrupt in between puts on the low four bits of `PORTC`,
in order, `second mod 10`, `second div 10`, `minute mod 10`, `minute div 10`, `hour mod 10`,
`hour div 10`; for 12:34:56 these are 6, 5, 4, 3, 2, 1. -/
theorem C8_rendered_digits :
    (∀ m : Mcu, m.second < 60 → m.minute < 60 → m.hour < 100 →
      busValues m =
        [m.second % 10, m.second / 10, m.minute % 10, m.minute / 10,
         m.hour % 10, m.hour / 10]) ∧
    (∀ m : Mcu, busValues { m with hour := 12, minute := 34, second := 56 }
      = [6, 5, 4, 3, 2, 1]) := by
  refine ⟨fun m hs hm hh => ?_, fun m => ?_⟩
  · rw [busValues_eq]
    have e1 : m.second % 10 % 16 = m.second % 10 := by omega
    have e2 : m.second / 10 % 16 = m.second / 10 := by omega
    have e3 : m.minute % 10 % 16 = m.minute % 10 := by omega
    have e4 : m.minute / 10 % 16 = m.minute / 10 := by omega
    have e5 : m.hour % 10 % 16 = m.hour % 10 := by omega
    have e6 : m.hour / 10 % 16 = m.hour / 10 := by omega
    rw [e1, e2, e3, e4, e5, e6]
  · rw [busValues_eq]
    dsimp only

/-- Witness of C8 at 99:59:59 with all bits of `PORTC` set beforehand. -/
theorem C8_rendered_digits_witness :
    (59 < 60 ∧ 59 < 60 ∧ 99 < 100) ∧
    busValues { powerOn with hour := 99, minute := 59, second := 59, PORTC := 0xFF }
      = [9, 5, 9, 5, 9, 9] :=
  ⟨by decide,
   C8_rendered_digits.1 { powerOn with hour := 99, minute := 59, second := 59, PORTC := 0xFF }
     (by decide) (by decide) (by decide)⟩

/-- C9, as stated, fails: 360000 ticks from power-on give 100:00:00, and the pass of the
super loop then puts 10 on the digit bus for the high hours digit. -/
theorem C9_digit_bus_counterexample :
    time (runCounter powerOn (List.replicate 360000 CounterEvent.tick)) = (100, 0, 0) ∧
    busValues (runCounter powerOn (List.replicate 360000 CounterEvent.tick))
      = [0, 0, 0, 0, 0, 10] ∧
    ¬ (∀ es : List CounterEvent, ∀ d ∈ busValues (runCounter powerOn es), d ≤ 9) := by
  have h1 : time (runCounter powerOn (List.replicate 360000 CounterEvent.tick)) = (100, 0, 0) := by
    rw [runCounter_replicate_tick]
    have h := time_ticks_of_zero 360000 powerOn rfl rfl rfl
    rw [h]
  have h2 : busValues (runCounter powerOn (List.replicate 360000 CounterEvent.tick))
      = [0, 0, 0, 0, 0, 10] := by
    rw [busValues_eq]
    generalize runCounter powerOn (List.replicate 360000 CounterEvent.tick) = s at h1
    simp only [time, Prod.mk.injEq] at h1
    obtain ⟨hh, hm, hs⟩ := h1
    rw [hh, hm, hs]
  refine ⟨h1, h2, fun h => ?_⟩
  have h3 := h (List.replicate 360000 CounterEvent.tick) 10
  rw [h2] at h3
  exact absurd (h3 (by simp)) (by decide)

/-- C9, amended: for every state reached from power-on by tick and reset events, the first
five values of a pass (the seconds digits, the minutes digits and the low hours digit) are
decimal digits, and all six are decimal digits when `hour < 100`. -/
theorem C9_digit_bus (es : List CounterEvent) :
    (busValues (runCounter powerOn es)).length = 6 ∧
    (∀ d ∈ (busValues (runCounter powerOn es)).take 5, d ≤ 9) ∧
    ((runCounter powerOn es).hour < 100 → ∀ d ∈ busValues (runCounter powerOn es), d ≤ 9) := by
  have hr : InRange (runCounter powerOn es) := inRange_run es powerOn (by decide)
  generalize runCounter powerOn es = s at hr
  obtain ⟨hs, hm⟩ := hr
  rw [busValues_eq]
  refine ⟨rfl, ?_, ?_⟩
  · intro d hd
    simp only [List.take, List.mem_cons, List.mem_nil_iff, or_false] at hd
    omega
  · intro hh d hd
    simp only [List.mem_cons, List.mem_nil_iff, or_false] at hd
    omega

/-- Witness of C9 (amended) after a tick, a reset and a tick: the bus value 1. -/
theorem C9_digit_bus_witness :
    (runCounter powerOn [CounterEvent.tick, CounterEvent.reset, CounterEvent.tick]).hour < 100 ∧
    1 ∈ busValues (runCounter powerOn [CounterEvent.tick, CounterEvent.reset, CounterEvent.tick]) ∧
    1 ≤ 9 :=
  ⟨by decide, by decide,
   (C9_digit_bus [CounterEvent.tick, CounterEvent.reset, CounterEvent.tick]).2.2
     (by decide) 1 (by decide)⟩

/-- C10: mutually exclusive digit enables in position order. In every pass the six values
written to `PORTA` are `1 << PA5`, ..., `1 << PA0` in this order; each has exactly one bit
set, which is the digit-enable bit of its position; the six values are pairwise distinct;
and the bus value written right after each of them is (the low four bits of) the digit of
that position: seconds low, seconds high, minutes low, minutes high, hours low, hours high. -/
theorem C10_digit_enables (m : Mcu) :
    enableValues m = [1 <<< PA5, 1 <<< PA4, 1 <<< PA3, 1 <<< PA2, 1 <<< PA1, 1 <<< PA0] ∧
    (enableValues m).map bitsSet = [[PA5], [PA4], [PA3], [PA2], [PA1], [PA0]] ∧
    (enableValues m).Nodup ∧
    (renderPass m).map (fun s => (bitsSet s.PORTA, digitBus s)) =
      [([PA5], m.second % 10), ([PA4], m.second / 10 % 16),
       ([PA3], m.minute % 10), ([PA2], m.minute / 10 % 16),
       ([PA1], m.hour % 10), ([PA0], m.hour / 10 % 16)] := by
  refine ⟨?_, ?_, ?_, ?_⟩
  · rw [enableValues_eq]
    decide
  · rw [enableValues_eq]
    decide
  · rw [enableValues_eq]
    decide
  · have hb := busValues_eq m
    have he := enableValues_eq m
    simp only [busValues, enableValues, renderPass, renderSteps, runSteps, List.map,
      List.cons.injEq, and_true] at hb he ⊢
    obtain ⟨b1, b2, b3, b4, b5, b6⟩ := hb
    obtain ⟨a1, a2, a3, a4, a5, a6⟩ := he
    simp only [Prod.mk.injEq]
    rw [b1, b2, b3, b4, b5, b6, a1, a2, a3, a4, a5, a6]
    have e1 : m.second % 10 % 16 = m.second % 10 := by omega
    have e3 : m.minute % 10 % 16 = m.minute % 10 := by omega
    have e5 : m.hour % 10 % 16 = m.hour % 10 := by omega
    rw [e1, e3, e5]
    refine ⟨⟨?_, rfl⟩, ⟨?_, rfl⟩, ⟨?_, rfl⟩, ⟨?_, rfl⟩, ⟨?_, rfl⟩, ?_, rfl⟩ <;> decide

/-! ## Frames of the control handlers -/

/-- C11: the control handlers do not interfere with each other's state. The reset handler
leaves `TCCR1B` (so the clock-select bits), `TCNT1` and `OCR1A` unchanged; the pause and
the resume handler leave `second`, `minute` and `hour` unchanged; hence a reset while the
clock is stopped gives 0:00:00 and the clock stays stopped: hardware tick events after it
change nothing. -/
theorem C11_handlers_frames (m : Mcu) :
    ((INT0_vect m).TCCR1B = m.TCCR1B ∧ (INT0_vect m).TCNT1 = m.TCNT1 ∧
      (INT0_vect m).OCR1A = m.OCR1A ∧ clockSelect (INT0_vect m) = clockSelect m) ∧
    time (INT1_vect m) = time m ∧
    time (INT2_vect m) = time m ∧
    (clockSelect m = 0 →
      time (INT0_vect m) = (0, 0, 0) ∧ clockSelect (INT0_vect m) = 0 ∧
      ∀ n : Nat, time (hwTicks n (INT0_vect m)) = (0, 0, 0)) := by
  refine ⟨⟨rfl, rfl, rfl, rfl⟩, rfl, rfl, fun h => ⟨rfl, h, fun n => ?_⟩⟩
  have hstop : clockSelect (INT0_vect m) = 0 := h
  rw [hwTicks_of_stopped n (INT0_vect m) hstop]
  rfl

/-- Witness of C11: 1:02:03 paused by the pause handler after `Timer1_Init_Compare_Mode`,
then reset, then five hardware tick events. -/
theorem C11_handlers_frames_witness :
    clockSelect (INT1_vect (Timer1_Init_Compare_Mode
      { powerOn with hour := 1, minute := 2, second := 3 })) = 0 ∧
    time (INT0_vect (INT1_vect (Timer1_Init_Compare_Mode
      { powerOn with hour := 1, minute := 2, second := 3 }))) = (0, 0, 0) ∧
    clockSelect (INT0_vect (INT1_vect (Timer1_Init_Compare_Mode
      { powerOn with hour := 1, minute := 2, second := 3 }))) = 0 ∧
    time (hwTicks 5 (INT0_vect (INT1_vect (Timer1_Init_Compare_Mode
      { powerOn with hour := 1, minute := 2, second := 3 })))) = (0, 0, 0) :=
  have h := (C11_handlers_frames (INT1_vect (Timer1_Init_Compare_Mode
    { powerOn with hour := 1, minute := 2, second := 3 }))).2.2.2 (by decide)
  ⟨by decide, h.1, h.2.1, h.2.2 5⟩

/-! ## The display loop under interrupts -/

/-- The counter after a counter event depends only on the counter before it. -/
theorem time_handle_congr (e : CounterEvent) (a b : Mcu) (h : time a = time b) :
    time (e.handle a) = time (e.handle b) := by
  cases e with
  | tick => exact time_tick_congr a b h
  | reset => rfl

/-- The counter after a sequence of counter events depends only on the counter before it. -/
theorem time_runCounter_congr (es : List CounterEvent) (a b : Mcu) (h : time a = time b) :
    time (runCounter a es) = time (runCounter b es) := by
  induction es generalizing a b with
  | nil => exact h
  | cons e es ih => exact ih _ _ (time_handle_congr e a b h)

/-- Running two event sequences one after the other. -/
theorem runCounter_append (es fs : List CounterEvent) (m : Mcu) :
    runCounter m (es ++ fs) = runCounter (runCounter m es) fs := by
  induction es generalizing m with
  | nil => rfl
  | cons e es ih => exact ih (e.handle m)

/-- With no event at all the interleaved steps are the plain steps. -/
theorem interleavedSteps_nil (fs : List (Mcu → Mcu)) (m : Mcu) :
    interleavedSteps fs [] m = runSteps fs m := by
  induction fs generalizing m with
  | nil => rfl
  | cons f fs ih =>
    show f m :: interleavedSteps fs [] (f m) = f m :: runSteps fs (f m)
    rw [ih]

/-- Events served after a digit position was written in a state whose counter is that of
`m` after the events `acc`: the counter is that of `m` after `acc` and the new events. -/
theorem time_after_position (pa d : Nat) (m a : Mcu) (acc es : List CounterEvent)
    (h : time a = time (runCounter m acc)) :
    time (runCounter (showDigit pa d a) es) = time (runCounter m (acc ++ es)) := by
  rw [runCounter_append]
  exact time_runCounter_congr es _ _ h

/-- C12, as stated, fails. At 0:00:59 (reached by 59 ticks from power-on) a pass reads the
two seconds digits, then a tick is served, then the pass reads the minutes and hours
digits: it shows 9, 5, 1, 0, 0, 0, the digits of 0:01:59, while the only counter values
held during the pass are 0:00:59 and 0:01:00. -/
theorem C12_no_torn_display_counterexample :
    time (ticks 59 powerOn) = (0, 0, 59) ∧
    (renderPassWith [[], [], [CounterEvent.tick]] { powerOn with second := 59 }).map digitBus
      = [9, 5, 1, 0, 0, 0] ∧
    heldTimes { powerOn with second := 59 } [[], [], [CounterEvent.tick]]
      = [(0, 0, 59), (0, 1, 0)] ∧
    digitsOf (0, 0, 59) = [9, 5, 0, 0, 0, 0] ∧
    digitsOf (0, 1, 0) = [0, 0, 1, 0, 0, 0] ∧
    ¬ (∀ (m : Mcu) (ess : List (List CounterEvent)), InRange m → m.hour < 100 →
        ∃ t ∈ heldTimes m ess, (renderPassWith ess m).map digitBus = digitsOf t) := by
  have h0 : time (ticks 59 powerOn) = (0, 0, 59) := by
    have h := time_ticks_of_zero 59 powerOn rfl rfl rfl
    rw [h]
  have h1 : (renderPassWith [[], [], [CounterEvent.tick]]
      { powerOn with second := 59 }).map digitBus = [9, 5, 1, 0, 0, 0] := by decide
  have h2 : heldTimes { powerOn with second := 59 } [[], [], [CounterEvent.tick]]
      = [(0, 0, 59), (0, 1, 0)] := by decide
  refine ⟨h0, h1, h2, by decide, by decide, fun h => ?_⟩
  obtain ⟨t, ht, hd⟩ := h { powerOn with second := 59 } [[], [], [CounterEvent.tick]]
    (by decide) (by decide)
  rw [h2] at ht
  rw [h1] at hd
  simp only [List.mem_cons, List.mem_nil_iff, or_false] at ht
  rcases ht with rfl | rfl
  · exact absurd hd (by decide)
  · exact absurd hd (by decide)

/-- C12, amended: in a pass in which handlers are served between the digit positions, each
rendered value is (the low four bits of) its digit expression in the counter state that
holds when that position is written, after all events served so far; with no event served
after the first position has been written, the six values are those of the one state the
pass runs in, and for `second < 60`, `minute < 60`, `hour < 100` they are its six digits. -/
theorem C12_render_reads (m : Mcu) (e1 e2 e3 e4 e5 e6 : List CounterEvent) :
    (renderPassWith [e1, e2, e3, e4, e5, e6] m).map digitBus =
      [ (runCounter m e1).second % 10 % 16,
        (runCounter m (e1 ++ e2)).second / 10 % 16,
        (runCounter m (e1 ++ e2 ++ e3)).minute % 10 % 16,
        (runCounter m (e1 ++ e2 ++ e3 ++ e4)).minute / 10 % 16,
        (runCounter m (e1 ++ e2 ++ e3 ++ e4 ++ e5)).hour % 10 % 16,
        (runCounter m (e1 ++ e2 ++ e3 ++ e4 ++ e5 ++ e6)).hour / 10 % 16 ] ∧
    (renderPassWith [e1] m).map digitBus = busValues (runCounter m e1) ∧
    ((runCounter m e1).second < 60 → (runCounter m e1).minute < 60 →
      (runCounter m e1).hour < 100 →
      (renderPassWith [e1] m).map digitBus = digitsOf (time (runCounter m e1))) := by
  have hone : (renderPassWith [e1] m).map digitBus = busValues (runCounter m e1) := by
    simp only [renderPassWith, renderSteps, interleavedSteps, busValues, renderPass, runSteps,
      interleavedSteps_nil]
  refine ⟨?_, hone, fun hs hm hh => ?_⟩
  · simp only [renderPassWith, renderSteps, interleavedSteps, List.map, digitBus_showDigit]
    generalize ha1 : runCounter m e1 = a1
    have k1 : time a1 = time (runCounter m e1) := by rw [ha1]
    have j1 := time_after_position PA5 (a1.second % 10) m a1 e1 e2 k1
    generalize runCounter (showDigit PA5 (a1.second % 10) a1) e2 = a2 at j1 ⊢
    have j2 := time_after_position PA4 (a2.second / 10) m a2 (e1 ++ e2) e3 j1
    generalize runCounter (showDigit PA4 (a2.second / 10) a2) e3 = a3 at j2 ⊢
    have j3 := time_after_position PA3 (a3.minute % 10) m a3 (e1 ++ e2 ++ e3) e4 j2
    generalize runCounter (showDigit PA3 (a3.minute % 10) a3) e4 = a4 at j3 ⊢
    have j4 := time_after_position PA2 (a4.minute / 10) m a4 (e1 ++ e2 ++ e3 ++ e4) e5 j3
    generalize runCounter (showDigit PA2 (a4.minute / 10) a4) e5 = a5 at j4 ⊢
    have j5 := time_after_position PA1 (a5.hour % 10) m a5 (e1 ++ e2 ++ e3 ++ e4 ++ e5) e6 j4
    generalize runCounter (showDigit PA1 (a5.hour % 10) a5) e6 = a6 at j5 ⊢
    simp only [time, Prod.mk.injEq] at j1 j2 j3 j4 j5
    rw [j1.2.2, j2.2.1, j3.2.1, j4.1, j5.1]
  · rw [hone, busValues_eq]
    have e1' : (runCounter m e1).second % 10 % 16 = (runCounter m e1).second % 10 := by omega
    have e2' : (runCounter m e1).second / 10 % 16 = (runCounter m e1).second / 10 := by omega
    have e3' : (runCounter m e1).minute % 10 % 16 = (runCounter m e1).minute % 10 := by omega
    have e4' : (runCounter m e1).minute / 10 % 16 = (runCounter m e1).minute / 10 := by omega
    have e5' : (runCounter m e1).hour % 10 % 16 = (runCounter m e1).hour % 10 := by omega
    have e6' : (runCounter m e1).hour / 10 % 16 = (runCounter m e1).hour / 10 := by omega
    rw [e1', e2', e3', e4', e5', e6']
    rfl

/-- Witness of C12 (amended): a tick served before the pass at 0:00:59; the pass then shows
the six digits of 0:01:00. -/
theorem C12_render_reads_witness :
    ((runCounter { powerOn with second := 59 } [CounterEvent.tick]).second < 60 ∧
      (runCounter { powerOn with second := 59 } [CounterEvent.tick]).minute < 60 ∧
      (runCounter { powerOn with second := 59 } [CounterEvent.tick]).hour < 100) ∧
    (renderPassWith [[CounterEvent.tick]] { powerOn with second := 59 }).map digitBus
      = digitsOf (time (runCounter { powerOn with second := 59 } [CounterEvent.tick])) :=
  ⟨by decide,
   (C12_render_reads { powerOn with second := 59 } [CounterEvent.tick] [] [] [] [] []).2.2
     (by decide) (by decide) (by decide)⟩

/-! ## The one-second period -/

/-- C13: one-second time base. `Timer1_Init_Compare_Mode` writes clock-select 011 (divide
by 64, one count every 64 microseconds at 1 MHz), `TCNT1 = 0` and `OCR1A = 15625`; counting
from 0 to the compare value takes 15625 * 64 = 1 000 000 clock cycles, one second at
1 MHz, and the compare value fits 16 bits. -/
theorem C13_one_second_time_base (m : Mcu) :
    clockSelect (Timer1_Init_Compare_Mode m) = 3 ∧
    prescalerOf (clockSelect (Timer1_Init_Compare_Mode m)) = 64 ∧
    prescalerOf (clockSelect (Timer1_Init_Compare_Mode m)) * 1000000 / F_CPU = 64 ∧
    (Timer1_Init_Compare_Mode m).TCNT1 = 0 ∧
    (Timer1_Init_Compare_Mode m).OCR1A = 15625 ∧
    ((Timer1_Init_Compare_Mode m).OCR1A - (Timer1_Init_Compare_Mode m).TCNT1)
      * prescalerOf (clockSelect (Timer1_Init_Compare_Mode m)) = 1000000 ∧
    ((Timer1_Init_Compare_Mode m).OCR1A - (Timer1_Init_Compare_Mode m).TCNT1)
      * prescalerOf (clockSelect (Timer1_Init_Compare_Mode m)) = 1 * F_CPU ∧
    (Timer1_Init_Compare_Mode m).OCR1A < 2 ^ 16 := by
  have hb : (Timer1_Init_Compare_Mode m).TCCR1B = 11 := init_TCCR1B m
  have hc : clockSelect (Timer1_Init_Compare_Mode m) = 3 := by
    unfold clockSelect
    rw [hb]
    decide
  have ht : (Timer1_Init_Compare_Mode m).TCNT1 = 0 := rfl
  have ho : (Timer1_Init_Compare_Mode m).OCR1A = 15625 := rfl
  rw [hc, ht, ho]
  decide

/-! ## The cascaded handler -/

/-- C14: the second zeroing of `second` is inert on states in range. For `second < 60` and
`minute < 60` the tick handler as written gives exactly the state given by the cascaded
handler. -/
theorem C14_second_zeroing_inert (m : Mcu) (hs : m.second < 60) (hm : m.minute < 60) :
    TIMER1_COMPA_vect m = cascadedTick m := by
  unfold TIMER1_COMPA_vect cascadedTick UINT_SIZE
  dsimp only
  have h1 : (m.second + 1) % 65536 = m.second + 1 := by omega
  have h2 : (m.minute + 1) % 65536 = m.minute + 1 := by omega
  rw [h1, h2]
  by_cases hc : m.second + 1 = 60
  · simp only [hc, if_true]
  · have hne : m.minute ≠ 60 := by omega
    simp only [hc, if_false, hne]

/-- Witness of C14 at 0:59:59, where both branches are taken. -/
theorem C14_second_zeroing_inert_witness :
    (59 < 60 ∧ 59 < 60) ∧
    TIMER1_COMPA_vect { powerOn with minute := 59, second := 59 }
      = cascadedTick { powerOn with minute := 59, second := 59 } :=
  ⟨by decide,
   C14_second_zeroing_inert { powerOn with minute := 59, second := 59 } (by decide) (by decide)⟩

/-! ## Bits of `TCCR1B` under pause and resume -/

/-- An 8-bit value has no bit at position 8 or above. -/
theorem testBit_reg8_high (v i : Nat) (hv : v < 256) (hi : ¬ i < 8) : v.testBit i = false := by
  apply Nat.testBit_lt_two_pow
  have h8 : (256 : Nat) = 2 ^ 8 := by decide
  rw [h8] at hv
  exact lt_of_lt_of_le hv (Nat.pow_le_pow_right (by decide) (by omega))

/-- Bits of an 8-bit value after `v &= ~(1 << CS10) & ~(1 << CS11)`. -/
theorem pause_bits (v i : Nat) (hv : v < 256) :
    ((v &&& (bitNot (1 <<< CS10) &&& bitNot (1 <<< CS11))) % REG8_SIZE).testBit i
      = (if i = CS10 ∨ i = CS11 then false else v.testBit i) := by
  have hmask : bitNot (1 <<< CS10) &&& bitNot (1 <<< CS11) = 65532 := by decide
  have h256 : REG8_SIZE = 2 ^ 8 := by decide
  rw [hmask, h256, Nat.testBit_mod_two_pow, Nat.testBit_and]
  unfold CS10 CS11
  by_cases hi : i < 8
  · have hm : Nat.testBit 65532 i = decide (2 ≤ i) := by
      interval_cases i <;> decide
    rw [hm]
    by_cases h2 : 2 ≤ i
    · have hne : ¬ (i = 0 ∨ i = 1) := by omega
      simp [hi, h2, hne]
    · have he : i = 0 ∨ i = 1 := by omega
      simp [h2, he]
  · have hf : v.testBit i = false := testBit_reg8_high v i hv hi
    have hne : ¬ (i = 0 ∨ i = 1) := by omega
    simp [hi, hf, hne]

/-- Bits of an 8-bit value after `v |= (1 << CS10) | (1 << CS11)`. -/
theorem resume_bits (v i : Nat) (hv : v < 256) :
    ((v ||| ((1 <<< CS10) ||| (1 <<< CS11))) % REG8_SIZE).testBit i
      = (if i = CS10 ∨ i = CS11 then true else v.testBit i) := by
  have hmask : (1 <<< CS10) ||| (1 <<< CS11) = 3 := by decide
  have h256 : REG8_SIZE = 2 ^ 8 := by decide
  rw [hmask, h256, Nat.testBit_mod_two_pow, Nat.testBit_or]
  unfold CS10 CS11
  by_cases hi : i < 8
  · have hm : Nat.testBit 3 i = decide (i < 2) := by
      interval_cases i <;> decide
    rw [hm]
    by_cases h2 : i < 2
    · have he : i = 0 ∨ i = 1 := by omega
      simp [hi, h2, he]
    · have hne : ¬ (i = 0 ∨ i = 1) := by omega
      simp [hi, h2, hne]
  · have hf : v.testBit i = false := testBit_reg8_high v i hv hi
    have hne : ¬ (i = 0 ∨ i = 1) := by omega
    simp [hi, hf, hne]

/-- The pause handler is idempotent on `TCCR1B`, whatever the value. -/
theorem pause_idem (v : Nat) :
    (((v &&& (bitNot (1 <<< CS10) &&& bitNot (1 <<< CS11))) % REG8_SIZE)
        &&& (bitNot (1 <<< CS10) &&& bitNot (1 <<< CS11))) % REG8_SIZE
      = (v &&& (bitNot (1 <<< CS10) &&& bitNot (1 <<< CS11))) % REG8_SIZE := by
  have hmask : bitNot (1 <<< CS10) &&& bitNot (1 <<< CS11) = 65532 := by decide
  have h256 : REG8_SIZE = 2 ^ 8 := by decide
  rw [hmask, h256]
  apply Nat.eq_of_testBit_eq
  intro i
  simp only [Nat.testBit_mod_two_pow, Nat.testBit_and]
  cases decide (i < 8) <;> cases v.testBit i <;> cases Nat.testBit 65532 i <;> rfl

/-- The resume handler is idempotent on `TCCR1B`, whatever the value. -/
theorem resume_idem (v : Nat) :
    (((v ||| ((1 <<< CS10) ||| (1 <<< CS11))) % REG8_SIZE)
        ||| ((1 <<< CS10) ||| (1 <<< CS11))) % REG8_SIZE
      = (v ||| ((1 <<< CS10) ||| (1 <<< CS11))) % REG8_SIZE := by
  have hmask : (1 <<< CS10) ||| (1 <<< CS11) = 3 := by decide
  have h256 : REG8_SIZE = 2 ^ 8 := by decide
  rw [hmask, h256]
  apply Nat.eq_of_testBit_eq
  intro i
  simp only [Nat.testBit_mod_two_pow, Nat.testBit_or]
  cases decide (i < 8) <;> cases v.testBit i <;> cases Nat.testBit 3 i <;> rfl

/-- C15: pause and resume touch only the clock-select bits and undo each other. For every
8-bit value of `TCCR1B` the pause handler clears exactly the bits `CS10` and `CS11` and the
resume handler sets exactly these two bits, every other bit of `TCCR1B` (so `WGM12`) is
unchanged, and `TCNT1` and `OCR1A` are unchanged; each handler is idempotent; pause followed
by resume gives back the value written by `Timer1_Init_Compare_Mode`. -/
theorem C15_pause_resume_bits (m : Mcu) (hv : m.TCCR1B < REG8_SIZE) :
    (∀ i : Nat, (INT1_vect m).TCCR1B.testBit i
        = (if i = CS10 ∨ i = CS11 then false else m.TCCR1B.testBit i)) ∧
    (∀ i : Nat, (INT2_vect m).TCCR1B.testBit i
        = (if i = CS10 ∨ i = CS11 then true else m.TCCR1B.testBit i)) ∧
    ((INT1_vect m).TCCR1B.testBit WGM12 = m.TCCR1B.testBit WGM12 ∧
      (INT2_vect m).TCCR1B.testBit WGM12 = m.TCCR1B.testBit WGM12) ∧
    ((INT1_vect m).TCNT1 = m.TCNT1 ∧ (INT1_vect m).OCR1A = m.OCR1A ∧
      (INT2_vect m).TCNT1 = m.TCNT1 ∧ (INT2_vect m).OCR1A = m.OCR1A) ∧
    (INT1_vect (INT1_vect m) = INT1_vect m ∧ INT2_vect (INT2_vect m) = INT2_vect m) ∧
    ((Timer1_Init_Compare_Mode m).TCCR1B = (1 <<< WGM12) ||| (1 <<< CS10) ||| (1 <<< CS11) ∧
      (INT2_vect (INT1_vect (Timer1_Init_Compare_Mode m))).TCCR1B
        = (Timer1_Init_Compare_Mode m).TCCR1B) := by
  have hp := fun i => pause_bits m.TCCR1B i hv
  have hr := fun i => resume_bits m.TCCR1B i hv
  refine ⟨hp, hr, ⟨?_, ?_⟩, ⟨rfl, rfl, rfl, rfl⟩, ⟨?_, ?_⟩, ?_, ?_⟩
  · have h := hp WGM12
    rw [if_neg (by decide)] at h
    exact h
  · have h := hr WGM12
    rw [if_neg (by decide)] at h
    exact h
  · show { m with TCCR1B := _ } = { m with TCCR1B := _ }
    have h := pause_idem m.TCCR1B
    simp only [INT1_vect, h]
  · show { m with TCCR1B := _ } = { m with TCCR1B := _ }
    have h := resume_idem m.TCCR1B
    simp only [INT2_vect, h]
  · rw [init_TCCR1B]
    decide
  · have hb : (Timer1_Init_Compare_Mode m).TCCR1B = 11 := init_TCCR1B m
    show (((Timer1_Init_Compare_Mode m).TCCR1B
        &&& (bitNot (1 <<< CS10) &&& bitNot (1 <<< CS11))) % REG8_SIZE
        ||| ((1 <<< CS10) ||| (1 <<< CS11))) % REG8_SIZE = (Timer1_Init_Compare_Mode m).TCCR1B
    rw [hb]
    decide

/-- Witness of C15 at `TCCR1B = 0xFF`: pause gives `0xFC`, resume keeps `0xFF`. -/
theorem C15_pause_resume_bits_witness :
    (0xFF < REG8_SIZE) ∧
    (INT1_vect { powerOn with TCCR1B := 0xFF }).TCCR1B.testBit 0
      = (if 0 = CS10 ∨ 0 = CS11 then false
         else ({ powerOn with TCCR1B := 0xFF } : Mcu).TCCR1B.testBit 0) ∧
    (INT1_vect { powerOn with TCCR1B := 0xFF }).TCCR1B = 0xFC ∧
    (INT2_vect { powerOn with TCCR1B := 0xFF }).TCCR1B = 0xFF :=
  ⟨by decide,
   (C15_pause_resume_bits { powerOn with TCCR1B := 0xFF } (by decide)).1 0,
   by decide, by decide⟩

/-! ## The external interrupt configuration -/

/-- Bit `i < 8` of an 8-bit register after `r |= c`. -/
theorem or_store_bit (v c i : Nat) (hi : i < 8) :
    ((v ||| c) % REG8_SIZE).testBit i = (v.testBit i || c.testBit i) := by
  have h256 : REG8_SIZE = 2 ^ 8 := by decide
  rw [h256, Nat.testBit_mod_two_pow, Nat.testBit_or]
  simp [hi]

/-- Bit `i < 8` of an 8-bit register after `r &= c`. -/
theorem and_store_bit (v c i : Nat) (hi : i < 8) :
    ((v &&& c) % REG8_SIZE).testBit i = (v.testBit i && c.testBit i) := by
  have h256 : REG8_SIZE = 2 ^ 8 := by decide
  rw [h256, Nat.testBit_mod_two_pow, Nat.testBit_and]
  simp [hi]

/-- No initialisation function clears a bit in a register where one of them sets bits
(`MCUCR`, `GICR`, `PORTD`, `PORTB`), and none sets a bit in a register where one of them
clears bits (`DDRD`, `DDRB`, `MCUCSR`). -/
theorem init_keeps_bits (f : InitFn) (m : Mcu) (i : Nat) (hi : i < 8) :
    (m.MCUCR.testBit i = true → (f.apply m).MCUCR.testBit i = true) ∧
    (m.GICR.testBit i = true → (f.apply m).GICR.testBit i = true) ∧
    (m.PORTD.testBit i = true → (f.apply m).PORTD.testBit i = true) ∧
    (m.PORTB.testBit i = true → (f.apply m).PORTB.testBit i = true) ∧
    ((f.apply m).DDRD.testBit i = true → m.DDRD.testBit i = true) ∧
    ((f.apply m).DDRB.testBit i = true → m.DDRB.testBit i = true) ∧
    ((f.apply m).MCUCSR.testBit i = true → m.MCUCSR.testBit i = true) := by
  cases f <;>
    simp only [InitFn.apply, INT0_INIT_RESET, INT1_INIT_PAUSE, INT2_INIT_RESUME,
      or_store_bit _ _ _ hi, and_store_bit _ _ _ hi, Bool.or_eq_true, Bool.and_eq_true] <;>
    tauto

/-- Every order of the three initialisation functions is one of the six listed. -/
theorem initOrders_complete (order : List InitFn)
    (h : order.Perm [InitFn.int0, InitFn.int1, InitFn.int2]) : order ∈ initOrders := by
  have hl : order.length = 3 := h.length_eq
  match order, hl with
  | [a, b, c], _ =>
    cases a <;> cases b <;> cases c <;>
      first
        | decide
        | exact absurd h (by decide)

/-- C16: input edge configuration. From the reset values `MCUCR = 0`, `MCUCSR = 0`,
`GICR = 0` (and the pull-up bit of `PD3` not set), after the three initialisation functions
have run, each once, in any order: `ISC01 = 1`, `ISC00 = 0`, `ISC11 = ISC10 = 1` in `MCUCR`,
`ISC2 = 0` in `MCUCSR`, `INT0`, `INT1`, `INT2` set in `GICR`, `PD2`, `PD3`, `PB2` inputs,
pull-up set for `PD2` and `PB2` and not for `PD3`. No initialisation function clears a bit
that another one set: from any state, none clears a bit of `MCUCR`, `GICR`, `PORTD`,
`PORTB`, and none sets a bit of `DDRD`, `DDRB`, `MCUCSR`. -/
theorem C16_input_edge_configuration (m : Mcu) (order : List InitFn)
    (hp : order.Perm [InitFn.int0, InitFn.int1, InitFn.int2])
    (h1 : m.MCUCR = 0) (h2 : m.MCUCSR = 0) (h3 : m.GICR = 0)
    (h4 : m.PORTD.testBit PD3 = false) :
    ((runInits order m).MCUCR.testBit ISC01 = true ∧
      (runInits order m).MCUCR.testBit ISC00 = false ∧
      (runInits order m).MCUCR.testBit ISC11 = true ∧
      (runInits order m).MCUCR.testBit ISC10 = true) ∧
    (runInits order m).MCUCSR.testBit ISC2 = false ∧
    ((runInits order m).GICR.testBit INT0 = true ∧
      (runInits order m).GICR.testBit INT1 = true ∧
      (runInits order m).GICR.testBit INT2 = true) ∧
    ((runInits order m).DDRD.testBit PD2 = false ∧
      (runInits order m).DDRD.testBit PD3 = false ∧
      (runInits order m).DDRB.testBit PB2 = false) ∧
    ((runInits order m).PORTD.testBit PD2 = true ∧
      (runInits order m).PORTB.testBit PB2 = true ∧
      (runInits order m).PORTD.testBit PD3 = false) ∧
    (∀ (f : InitFn) (s : Mcu) (i : Nat), i < 8 →
      (s.MCUCR.testBit i = true → (f.apply s).MCUCR.testBit i = true) ∧
      (s.GICR.testBit i = true → (f.apply s).GICR.testBit i = true) ∧
      (s.PORTD.testBit i = true → (f.apply s).PORTD.testBit i = true) ∧
      (s.PORTB.testBit i = true → (f.apply s).PORTB.testBit i = true) ∧
      ((f.apply s).DDRD.testBit i = true → s.DDRD.testBit i = true) ∧
      ((f.apply s).DDRB.testBit i = true → s.DDRB.testBit i = true) ∧
      ((f.apply s).MCUCSR.testBit i = true → s.MCUCSR.testBit i = true)) := by
  have ho : order ∈ initOrders := initOrders_complete order hp
  have b2 : (2 : Nat) < 8 := by decide
  have b3 : (3 : Nat) < 8 := by decide
  have n22 : (bitNot (1 <<< 2)).testBit 2 = false := by decide
  have n23 : (bitNot (1 <<< 2)).testBit 3 = true := by decide
  have n32 : (bitNot (1 <<< 3)).testBit 2 = true := by decide
  have n33 : (bitNot (1 <<< 3)).testBit 3 = false := by decide
  have s22 : Nat.testBit (1 <<< 2) 2 = true := by decide
  have s23 : Nat.testBit (1 <<< 2) 3 = false := by decide
  unfold PD3 at h4
  refine ⟨?_, ?_, ?_, ?_, ?_, init_keeps_bits⟩ <;>
  · simp only [initOrders, List.mem_cons, List.mem_nil_iff, or_false] at ho
    rcases ho with rfl | rfl | rfl | rfl | rfl | rfl <;>
      simp only [runInits, InitFn.apply, INT0_INIT_RESET, INT1_INIT_PAUSE, INT2_INIT_RESUME,
        h1, h2, h3, PD2, PD3, PB2, or_store_bit _ _ _ b2, and_store_bit _ _ _ b2,
        or_store_bit _ _ _ b3, and_store_bit _ _ _ b3, h4, n22, n23, n32, n33, s22, s23,
        Bool.and_false, Bool.and_true, Bool.or_true, Bool.or_false, Bool.false_and,
        and_self] <;>
      decide

/-- Witness of C16 from the power-on state, in the order INT2, INT0, INT1. -/
theorem C16_input_edge_configuration_witness :
    ([InitFn.int2, InitFn.int0, InitFn.int1].Perm [InitFn.int0, InitFn.int1, InitFn.int2] ∧
      powerOn.MCUCR = 0 ∧
      powerOn.MCUCSR = 0 ∧ powerOn.GICR = 0 ∧ powerOn.PORTD.testBit PD3 = false) ∧
    ((runInits [InitFn.int2, InitFn.int0, InitFn.int1] powerOn).MCUCR.testBit ISC01 = true ∧
      (runInits [InitFn.int2, InitFn.int0, InitFn.int1] powerOn).MCUCR.testBit ISC00 = false ∧
      (runInits [InitFn.int2, InitFn.int0, InitFn.int1] powerOn).MCUCR.testBit ISC11 = true ∧
      (runInits [InitFn.int2, InitFn.int0, InitFn.int1] powerOn).MCUCR.testBit ISC10 = true) ∧
    (runInits [InitFn.int2, InitFn.int0, InitFn.int1] powerOn).MCUCR = 14 ∧
    (runInits [InitFn.int2, InitFn.int0, InitFn.int1] powerOn).GICR = 224 :=
  ⟨by decide,
   (C16_input_edge_configuration powerOn [InitFn.int2, InitFn.int0, InitFn.int1]
     (by decide) rfl rfl rfl (by decide)).1,
   by decide, by decide⟩

/-! ## The upper half of `PORTC` -/

/-- Bits of the mask `0xF0`. -/
theorem testBit_0xF0 (i : Nat) : Nat.testBit 0xF0 i = decide (4 ≤ i ∧ i < 8) := by
  by_cases hi : i < 8
  · interval_cases i <;> decide
  · rw [testBit_reg8_high 0xF0 i (by decide) hi]
    have hn : ¬ (4 ≤ i ∧ i < 8) := fun h => hi h.2
    simp [hn]

/-- Writing `(p & 0xF0) | d` with `d < 16` to an 8-bit register keeps bits 4 to 7 of `p`. -/
theorem upper_nibble_kept (p d : Nat) (hd : d < 16) :
    ((((p &&& 0xF0) ||| d) % 65536) % 256) &&& 0xF0 = p &&& 0xF0 := by
  apply Nat.eq_of_testBit_eq
  intro i
  have h256 : (256 : Nat) = 2 ^ 8 := by decide
  have h65536 : (65536 : Nat) = 2 ^ 16 := by decide
  rw [h256, h65536]
  simp only [Nat.testBit_and, Nat.testBit_or, Nat.testBit_mod_two_pow, testBit_0xF0]
  by_cases hi : 4 ≤ i ∧ i < 8
  · have hd2 : d.testBit i = false := by
      apply Nat.testBit_lt_two_pow
      have h16 : (16 : Nat) = 2 ^ 4 := by decide
      rw [h16] at hd
      exact lt_of_lt_of_le hd (Nat.pow_le_pow_right (by decide) hi.1)
    have h8 : i < 8 := hi.2
    have h16 : i < 16 := by omega
    simp [hi, hd2, h8, h16]
  · simp [hi]

/-- A digit position with a digit below 16 keeps bits 4 to 7 of `PORTC`. -/
theorem showDigit_upper (pa d : Nat) (m : Mcu) (hd : d < 16) :
    (showDigit pa d m).PORTC &&& 0xF0 = m.PORTC &&& 0xF0 :=
  upper_nibble_kept m.PORTC d hd

/-- C17: the render loop does not disturb the upper half of `PORTC`. For `second < 60`,
`minute < 60` and `hour < 160`, after each of the six writes of a pass the bits 4 to 7 of
`PORTC` are those it had before the pass. -/
theorem C17_upper_half_of_PORTC (m : Mcu) (hs : m.second < 60) (hm : m.minute < 60)
    (hh : m.hour < 160) :
    (renderPass m).map (fun s => s.PORTC &&& 0xF0) = List.replicate 6 (m.PORTC &&& 0xF0) := by
  have d1 : m.second % 10 < 16 := by omega
  have d2 : m.second / 10 < 16 := by omega
  have d3 : m.minute % 10 < 16 := by omega
  have d4 : m.minute / 10 < 16 := by omega
  have d5 : m.hour % 10 < 16 := by omega
  have d6 : m.hour / 10 < 16 := by omega
  simp only [renderPass, renderSteps, runSteps, List.map, showDigit_second, showDigit_minute,
    showDigit_hour, List.replicate]
  rw [showDigit_upper _ _ _ d6, showDigit_upper _ _ _ d5, showDigit_upper _ _ _ d4,
    showDigit_upper _ _ _ d3, showDigit_upper _ _ _ d2, showDigit_upper _ _ _ d1]

/-- Witness of C17 at 159:59:59 with `PORTC = 0xA5`: the upper half stays `0xA0`. -/
theorem C17_upper_half_of_PORTC_witness :
    (59 < 60 ∧ 59 < 60 ∧ 159 < 160) ∧
    (renderPass { powerOn with hour := 159, minute := 59, second := 59, PORTC := 0xA5 }).map
        (fun s => s.PORTC &&& 0xF0)
      = List.replicate 6 (0xA5 &&& 0xF0) :=
  ⟨by decide,
   C17_upper_half_of_PORTC
     { powerOn with hour := 159, minute := 59, second := 59, PORTC := 0xA5 }
     (by decide) (by decide) (by decide)⟩

end StopWatch
